import Mathlib

/-!
Shallow embedding of `src/source_code/ai_assistant.py`: a keyword-based
intent classifier (`parse_intent`), validated data types (`UserProfile`,
`Request`, `Response`) and three assistant variants (music, fitness,
study) sharing a greeting and each handling exactly one intent.

Text is modelled as `List Char`.  Python `str.lower` is modelled by
`List.map Char.toLower` (the inputs of interest are ASCII, where the two
agree).  Python `assert`-based constructors are modelled as `Option`-
returning smart constructors (`none` = assertion failure).  The regex
`\b(k1|k2|k3)\b` of `re.search` is modelled by `findFrom`, a scanner that
tries a whole-word match at every position: keywords consist of word
characters, so the leading `\b` holds iff the preceding character (if
any) is not a word character, and the trailing `\b` holds iff the
following character (if any) is not a word character.  Float confidences
are modelled as rationals (all constants in the program are exact).
-/

/-- `CommandType` enum of the source. -/
inductive CommandType where
  | UNKNOWN
  | RECOMMEND_MUSIC
  | SUGGEST_WORKOUT
  | SCHEDULE_STUDY
deriving DecidableEq, Repr

/-- Word character in the sense of the regex `\b` boundary: `[A-Za-z0-9_]`. -/
def isWordChar (c : Char) : Bool := c.isAlpha || c.isDigit || c == '_'

/-- Does `word` occur at the very start of `text`, followed by the end of
the text or by a non-word character (the trailing `\b`)? -/
def matchesHere : List Char → List Char → Bool
  | [], [] => true
  | [], c :: _ => !(isWordChar c)
  | _ :: _, [] => false
  | w :: ws, c :: cs => (c == w) && matchesHere ws cs

/-- Scan `text` for a whole-word occurrence of `word`; `prev` records
whether the character just before the current position is a word
character (the leading `\b` demands it is not). -/
def findFrom (word : List Char) : Bool → List Char → Bool
  | prev, [] => !prev && matchesHere word []
  | prev, c :: cs => (!prev && matchesHere word (c :: cs)) || findFrom word (isWordChar c) cs

/-- `re.search(r"\b<word>\b", text)` for a keyword made of word characters. -/
def hasWholeWord (word text : List Char) : Bool := findFrom word false text

/-- `re.search(r"\b(k1|k2|k3)\b", text)` truthiness for a keyword list. -/
def keywordMatch (kws : List (List Char)) (text : List Char) : Bool :=
  kws.any (fun w => hasWholeWord w text)

def musicKeywords : List (List Char) := ["music".toList, "song".toList, "play".toList]

def workoutKeywords : List (List Char) := ["workout".toList, "exercise".toList, "train".toList]

def studyKeywords : List (List Char) := ["study".toList, "schedule".toList, "learn".toList]

/-- `parse_intent` of the source: lower-case, then first match among
music, workout, study keyword groups wins; otherwise `UNKNOWN`. -/
def parse_intent (input_str : List Char) : CommandType :=
  let text := input_str.map Char.toLower
  if keywordMatch musicKeywords text then .RECOMMEND_MUSIC
  else if keywordMatch workoutKeywords text then .SUGGEST_WORKOUT
  else if keywordMatch studyKeywords text then .SCHEDULE_STUDY
  else .UNKNOWN

/-- `UserProfile` of the source; `age : Nat` carries the non-negativity
assertion, the preferences dict is an association list. -/
structure UserProfile where
  name : List Char
  age : Nat
  preferences : List (List Char × List Char)
  is_premium : Bool
deriving DecidableEq, Repr

/-- Python `dict.get(key, dflt)` on the preferences association list. -/
def dictGet (prefs : List (List Char × List Char)) (key dflt : List Char) : List Char :=
  match prefs.lookup key with
  | some v => v
  | none => dflt

/-- The fields a `datetime` contributes to this program (only
`strftime("%Y-%m-%d %H:%M")` is ever applied to it). -/
structure Datetime where
  year : Nat
  month : Nat
  day : Nat
  hour : Nat
  minute : Nat
deriving DecidableEq, Repr

/-- Zero-pad the decimal digits of `n` to `width` characters. -/
def padZero (width n : Nat) : List Char :=
  let ds := Nat.toDigits 10 n
  List.replicate (width - ds.length) '0' ++ ds

/-- `t.strftime("%Y-%m-%d %H:%M")`. -/
def strftime_YmdHM (t : Datetime) : List Char :=
  padZero 4 t.year ++ ('-' :: padZero 2 t.month) ++ ('-' :: padZero 2 t.day)
    ++ (' ' :: padZero 2 t.hour) ++ (':' :: padZero 2 t.minute)

/-- Python `str.strip()`: drop leading and trailing whitespace. -/
def strip (s : List Char) : List Char :=
  ((s.dropWhile Char.isWhitespace).reverse.dropWhile Char.isWhitespace).reverse

/-- `Request` of the source: raw text, timestamp, command type. -/
structure Request where
  input : List Char
  timestamp : Datetime
  command_type : CommandType
deriving DecidableEq, Repr

/-- `Request.__init__`: asserts the input is non-blank (`input_str.strip()`
truthy), fills in a missing command via `parse_intent`; `none` models the
assertion failure. -/
def mkRequest (input_str : List Char) (timestamp : Datetime)
    (command : Option CommandType) : Option Request :=
  if (strip input_str).isEmpty then none
  else some { input := input_str, timestamp := timestamp,
              command_type := command.getD (parse_intent input_str) }

/-- `Response` of the source: message, confidence, action flag. -/
structure Response where
  message : List Char
  confidence : ℚ
  action_performed : Bool
deriving DecidableEq, Repr

/-- `Response.__init__`: asserts `0.0 <= confidence <= 1.0`; `none`
models the assertion failure. -/
def mkResponse (message : List Char) (confidence : ℚ) (action_performed : Bool) :
    Option Response :=
  if 0 ≤ confidence ∧ confidence ≤ 1 then
    some { message := message, confidence := confidence, action_performed := action_performed }
  else none

/-- The three concrete subclasses of `AIAssistant`. -/
inductive AssistantKind where
  | Music
  | Fitness
  | Study
deriving DecidableEq, Repr

/-- The single `CommandType` each variant handles. -/
def handlesIntent : AssistantKind → CommandType
  | .Music => .RECOMMEND_MUSIC
  | .Fitness => .SUGGEST_WORKOUT
  | .Study => .SCHEDULE_STUDY

/-- The rejection message each variant returns on a non-matching intent. -/
def rejectionMessage : AssistantKind → List Char
  | .Music => "Sorry, cannot handle that request.".toList
  | .Fitness => "Sorry, request not recognized.".toList
  | .Study => "Unable to handle that request.".toList

/-- The greeting template of `AIAssistant.greet_user`. -/
def greeting_message (name : List Char) : List Char :=
  "Hello, ".toList ++ name ++ "! How can assistance begin today?".toList

/-- `AIAssistant.greet_user`, inherited unchanged by every variant (the
variant argument is ignored, as the method lives on the base class). -/
def greet_user (_kind : AssistantKind) (profile : UserProfile) : Option Response :=
  mkResponse (greeting_message profile.name) 1 false

/-- First placeholder track `f"Song_{mood}_1"`. -/
def song_1 (mood : List Char) : List Char := "Song_".toList ++ mood ++ "_1".toList

/-- Second placeholder track `f"Song_{mood}_2"`. -/
def song_2 (mood : List Char) : List Char := "Song_".toList ++ mood ++ "_2".toList

/-- `MusicAssistant.recommend_playlist`; the message embeds the Python
list repr `[\x27Song_.._1\x27, \x27Song_.._2\x27]`. -/
def recommend_playlist (profile : UserProfile) (_request : Request) : Option Response :=
  let mood := dictGet profile.preferences "mood".toList "neutral".toList
  let songs := "[\x27".toList ++ song_1 mood ++ "\x27, \x27".toList ++ song_2 mood ++ "\x27]".toList
  let msg := "Recommended playlist based on mood \x27".toList ++ mood ++ "\x27: ".toList ++ songs
  mkResponse msg (mkRat 9 10) true

/-- `FitnessAssistant.suggest_workout`. -/
def suggest_workout (profile : UserProfile) (_request : Request) : Option Response :=
  let goal := dictGet profile.preferences "fitness_goal".toList "general fitness".toList
  let plan := "30 minutes of ".toList ++ goal ++ " exercises".toList
  let msg := "Suggested workout: ".toList ++ plan
  mkResponse msg (mkRat 17 20) true

/-- `StudyAssistant.schedule_study_session`. -/
def schedule_study_session (profile : UserProfile) (request : Request) : Option Response :=
  let topic := dictGet profile.preferences "study_topic".toList "general topics".toList
  let time_str := strftime_YmdHM request.timestamp
  let msg := "Scheduled study session on \x27".toList ++ topic ++ "\x27 at ".toList ++ time_str
  mkResponse msg (mkRat 4 5) true

/-- `handle_request` of each variant: dispatch to the action when the
request carries the one handled intent, otherwise return the fixed
rejection response. -/
def handle_request (kind : AssistantKind) (profile : UserProfile) (request : Request) :
    Option Response :=
  match kind with
  | .Music =>
      if request.command_type = CommandType.RECOMMEND_MUSIC then recommend_playlist profile request
      else mkResponse (rejectionMessage .Music) 0 false
  | .Fitness =>
      if request.command_type = CommandType.SUGGEST_WORKOUT then suggest_workout profile request
      else mkResponse (rejectionMessage .Fitness) 0 false
  | .Study =>
      if request.command_type = CommandType.SCHEDULE_STUDY then schedule_study_session profile request
      else mkResponse (rejectionMessage .Study) 0 false

/-- First user profile of the driver script. -/
def aliceProfile : UserProfile :=
  ⟨"Alice".toList, 30, [("mood".toList, "happy".toList)], true⟩

/-- Third user profile of the driver script. -/
def carolProfile : UserProfile :=
  ⟨"Carol".toList, 25, [("study_topic".toList, "object-oriented programming".toList)], false⟩

/-- A concrete timestamp standing in for `datetime.now()`. -/
def sampleTime : Datetime := ⟨2026, 10, 12, 9, 5⟩

/-- The first simulated request of the driver script, with its intent
inferred by `parse_intent` as in `Request.__init__`. -/
def musicRequest : Request :=
  ⟨"Can you play some music for me?".toList, sampleTime,
    parse_intent "Can you play some music for me?".toList⟩

/-- The second simulated request of the driver script. -/
def workoutRequest : Request :=
  ⟨"I want a workout plan".toList, sampleTime,
    parse_intent "I want a workout plan".toList⟩

/-- The third simulated request of the driver script. -/
def studyRequest : Request :=
  ⟨"Please help me schedule a study session".toList, sampleTime,
    parse_intent "Please help me schedule a study session".toList⟩

/-- Declarative reading of `re.search(r"\b<word>\b", text)` for a keyword
of word characters: `word` occurs in `text` with no word character
immediately before it and none immediately after it. -/
def ContainsWholeWord (word text : List Char) : Prop :=
  ∃ p q, text = p ++ word ++ q ∧
    (∀ c, p.getLast? = some c → isWordChar c = false) ∧
    (∀ c, q.head? = some c → isWordChar c = false)

/-- Some keyword of the group occurs as a whole word in `text`. -/
def KeywordOccurs (kws : List (List Char)) (text : List Char) : Prop :=
  ∃ w, w ∈ kws ∧ ContainsWholeWord w text

example : parse_intent "Can you play some music for me?".toList = .RECOMMEND_MUSIC := by decide
example : parse_intent "I want a workout plan".toList = .SUGGEST_WORKOUT := by decide
example : parse_intent "Please help me schedule a study session".toList = .SCHEDULE_STUDY := by decide
example : parse_intent "hello there".toList = .UNKNOWN := by decide
example : parse_intent "playful".toList = .UNKNOWN := by decide
example : parse_intent "PLAY".toList = .RECOMMEND_MUSIC := by decide

example : strftime_YmdHM ⟨2026, 10, 12, 9, 5⟩ = "2026-10-12 09:05".toList := by decide

example :
    (handle_request .Music ⟨"Alice".toList, 30, [("mood".toList, "happy".toList)], true⟩
      ⟨"Can you play some music for me?".toList, ⟨2026, 10, 12, 9, 5⟩, .RECOMMEND_MUSIC⟩).map
      (fun r => r.message) =
    some "Recommended playlist based on mood \x27happy\x27: [\x27Song_happy_1\x27, \x27Song_happy_2\x27]".toList := by
  decide

theorem matchesHere_iff (word text : List Char) :
    matchesHere word text = true ↔
      ∃ q, text = word ++ q ∧ ∀ c, q.head? = some c → isWordChar c = false := by
  induction word generalizing text with
  | nil =>
    cases text with
    | nil => simp [matchesHere]
    | cons c cs => simp [matchesHere]
  | cons w ws ih =>
    cases text with
    | nil => simp [matchesHere]
    | cons c cs =>
      simp only [matchesHere, Bool.and_eq_true, beq_iff_eq, ih, List.cons_append]
      constructor
      · rintro ⟨hc, q, hq, hcond⟩
        exact ⟨q, by rw [hc, hq], hcond⟩
      · rintro ⟨q, hq, hcond⟩
        obtain ⟨h1, h2⟩ := List.cons_eq_cons.mp hq
        exact ⟨h1, q, h2, hcond⟩

theorem findFrom_iff (word : List Char) (hw : word ≠ []) (text : List Char) (prev : Bool) :
    findFrom word prev text = true ↔
      ∃ p q, text = p ++ word ++ q ∧ (p = [] → prev = false) ∧
        (∀ c, p.getLast? = some c → isWordChar c = false) ∧
        (∀ c, q.head? = some c → isWordChar c = false) := by
  induction text generalizing prev with
  | nil =>
    constructor
    · intro h
      exfalso
      obtain ⟨w, ws, rfl⟩ := List.exists_cons_of_ne_nil hw
      simp [findFrom, matchesHere] at h
    · rintro ⟨p, q, hpq, -, -, -⟩
      exfalso
      rw [List.nil_eq, List.append_eq_nil, List.append_eq_nil] at hpq
      exact hw hpq.1.2
  | cons c cs ih =>
    rw [show findFrom word prev (c :: cs) =
          ((!prev && matchesHere word (c :: cs)) || findFrom word (isWordChar c) cs) from rfl,
        Bool.or_eq_true, Bool.and_eq_true, Bool.not_eq_true', matchesHere_iff,
        ih (isWordChar c)]
    constructor
    · rintro (⟨hprev, q, hq, hcond⟩ | ⟨p, q, hpq, hp0, hplast, hqhead⟩)
      · exact ⟨[], q, by simpa using hq, fun _ => hprev, by simp, hcond⟩
      · refine ⟨c :: p, q, by simp [hpq], by simp, ?_, hqhead⟩
        intro d hd
        cases p with
        | nil =>
          rw [List.getLast?_singleton] at hd
          cases hd
          exact hp0 rfl
        | cons p1 ps =>
          rw [List.getLast?_cons_cons] at hd
          exact hplast d hd
    · rintro ⟨p, q, hpq, hp0, hplast, hqhead⟩
      cases p with
      | nil =>
        left
        exact ⟨hp0 rfl, q, by simpa using hpq, hqhead⟩
      | cons p1 ps =>
        right
        obtain ⟨h1, h2⟩ := List.cons_eq_cons.mp (by simpa using hpq)
        refine ⟨ps, q, by rw [List.append_assoc]; exact h2, ?_, ?_, hqhead⟩
        · intro hps
          subst hps h1
          exact hplast c (by rw [List.getLast?_singleton])
        · intro d hd
          cases ps with
          | nil => cases hd
          | cons r rs =>
            refine hplast d ?_
            rw [List.getLast?_cons_cons]
            exact hd

theorem hasWholeWord_iff (word : List Char) (hw : word ≠ []) (text : List Char) :
    hasWholeWord word text = true ↔ ContainsWholeWord word text := by
  rw [hasWholeWord, findFrom_iff word hw text false, ContainsWholeWord]
  constructor
  · rintro ⟨p, q, h1, -, h3, h4⟩
    exact ⟨p, q, h1, h3, h4⟩
  · rintro ⟨p, q, h1, h3, h4⟩
    exact ⟨p, q, h1, fun _ => rfl, h3, h4⟩

theorem keywordMatch_iff (kws : List (List Char)) (hk : ∀ w ∈ kws, w ≠ [])
    (text : List Char) :
    keywordMatch kws text = true ↔ KeywordOccurs kws text := by
  rw [keywordMatch, List.any_eq_true]
  constructor
  · rintro ⟨w, hmem, hww⟩
    exact ⟨w, hmem, (hasWholeWord_iff w (hk w hmem) text).mp hww⟩
  · rintro ⟨w, hmem, hcw⟩
    exact ⟨w, hmem, (hasWholeWord_iff w (hk w hmem) text).mpr hcw⟩

theorem toNat_ofNat_of_valid {n : Nat} (h : n.isValidChar) : (Char.ofNat n).toNat = n := by
  rw [Char.ofNat, dif_pos h]
  rfl

theorem toLower_toLower (c : Char) : c.toLower.toLower = c.toLower := by
  by_cases h : c.toNat ≥ 65 ∧ c.toNat ≤ 90
  · have h1 : c.toLower = Char.ofNat (c.toNat + 32) := by rw [Char.toLower, if_pos h]
    have hv : (c.toNat + 32).isValidChar := Or.inl (by omega)
    rw [h1, Char.toLower, toNat_ofNat_of_valid hv, if_neg (by omega)]
  · have h1 : c.toLower = c := by rw [Char.toLower, if_neg h]
    simp [h1]

theorem map_toLower_idem (s : List Char) :
    (s.map Char.toLower).map Char.toLower = s.map Char.toLower := by
  rw [List.map_map]
  exact List.map_congr_left fun c _ => toLower_toLower c

/-- C1: `parse_intent` lower-cases its input and tests the keyword groups
in the fixed priority order music, workout, study; the first group with a
whole-word occurrence determines the result, and with no occurrence the
result is `UNKNOWN`.  Stated as an exact characterisation of each of the
four possible return values in terms of declarative whole-word keyword
occurrence in the lower-cased text. -/
theorem parse_intent_priority (s : List Char) :
    (parse_intent s = CommandType.RECOMMEND_MUSIC ↔
      KeywordOccurs musicKeywords (s.map Char.toLower)) ∧
    (parse_intent s = CommandType.SUGGEST_WORKOUT ↔
      ¬KeywordOccurs musicKeywords (s.map Char.toLower) ∧
        KeywordOccurs workoutKeywords (s.map Char.toLower)) ∧
    (parse_intent s = CommandType.SCHEDULE_STUDY ↔
      ¬KeywordOccurs musicKeywords (s.map Char.toLower) ∧
        ¬KeywordOccurs workoutKeywords (s.map Char.toLower) ∧
        KeywordOccurs studyKeywords (s.map Char.toLower)) ∧
    (parse_intent s = CommandType.UNKNOWN ↔
      ¬KeywordOccurs musicKeywords (s.map Char.toLower) ∧
        ¬KeywordOccurs workoutKeywords (s.map Char.toLower) ∧
        ¬KeywordOccurs studyKeywords (s.map Char.toLower)) := by
  have hm := keywordMatch_iff musicKeywords (by decide) (s.map Char.toLower)
  have hw := keywordMatch_iff workoutKeywords (by decide) (s.map Char.toLower)
  have hs := keywordMatch_iff studyKeywords (by decide) (s.map Char.toLower)
  rw [← hm, ← hw, ← hs]
  simp only [parse_intent]
  cases h1 : keywordMatch musicKeywords (s.map Char.toLower) <;>
    cases h2 : keywordMatch workoutKeywords (s.map Char.toLower) <;>
      cases h3 : keywordMatch studyKeywords (s.map Char.toLower) <;>
        simp [h1, h2, h3]

/-- C8: the classifier is deterministic; two runs on the same text return
the same `CommandType` (the embedded `parse_intent` is a pure function of
its input). -/
theorem parse_intent_deterministic (s : List Char) (r₁ r₂ : CommandType)
    (h₁ : r₁ = parse_intent s) (h₂ : r₂ = parse_intent s) : r₁ = r₂ :=
  h₁.trans h₂.symm

/-- C8 witness: two runs on "Can you play some music for me?" agree. -/
theorem parse_intent_deterministic_witness :
    CommandType.RECOMMEND_MUSIC = CommandType.RECOMMEND_MUSIC :=
  parse_intent_deterministic "Can you play some music for me?".toList
    CommandType.RECOMMEND_MUSIC CommandType.RECOMMEND_MUSIC (by decide) (by decide)

/-- C9: the classifier is case-insensitive: texts equal up to letter case
(same lower-casing) classify identically, and in particular the
lower-cased text classifies like the original. -/
theorem parse_intent_case_insensitive :
    (∀ s t : List Char, s.map Char.toLower = t.map Char.toLower →
      parse_intent s = parse_intent t) ∧
    (∀ s : List Char, parse_intent (s.map Char.toLower) = parse_intent s) := by
  have key : ∀ s t : List Char, s.map Char.toLower = t.map Char.toLower →
      parse_intent s = parse_intent t := by
    intro s t h
    simp only [parse_intent]
    rw [h]
  exact ⟨key, fun s => key (s.map Char.toLower) s (map_toLower_idem s)⟩

/-- C9 witness: "PLAY Loud" and "play loud" lower-case identically and
classify identically. -/
theorem parse_intent_case_insensitive_witness :
    parse_intent "PLAY Loud".toList = parse_intent "play loud".toList :=
  parse_intent_case_insensitive.1 "PLAY Loud".toList "play loud".toList (by decide)

theorem mkResponse_some (m : List Char) (c : ℚ) (a : Bool) (h0 : 0 ≤ c) (h1 : c ≤ 1) :
    mkResponse m c a = some ⟨m, c, a⟩ := by
  rw [mkResponse, if_pos ⟨h0, h1⟩]

/-- C5: `Request` construction fails exactly on blank input: a blank
(empty-after-strip) input string yields no `Request`, and any constructed
`Request` carries the given, non-blank, input text. -/
theorem mkRequest_blank_validation (s : List Char) (t : Datetime) (c : Option CommandType) :
    (strip s = [] → mkRequest s t c = none) ∧
    (∀ r, mkRequest s t c = some r → r.input = s ∧ strip r.input ≠ []) := by
  constructor
  · intro h
    rw [mkRequest, if_pos (by rw [h]; rfl)]
  · intro r hr
    rw [mkRequest] at hr
    by_cases h : (strip s).isEmpty
    · rw [if_pos h] at hr
      cases hr
    · rw [if_neg h] at hr
      cases hr
      exact ⟨rfl, by simpa [List.isEmpty_iff] using h⟩

/-- C5 witness: the whitespace-only input "   " fails construction. -/
theorem mkRequest_blank_validation_witness :
    mkRequest "   ".toList ⟨2026, 10, 12, 9, 5⟩ none = none :=
  (mkRequest_blank_validation "   ".toList ⟨2026, 10, 12, 9, 5⟩ none).1 (by decide)

/-- C6: a `Response` is constructed exactly when the confidence lies in
[0, 1], so every constructed `Response` — in particular every result of
`greet_user` and of `handle_request` — has confidence in [0, 1]. -/
theorem response_confidence_invariant :
    (∀ m c a r, mkResponse m c a = some r → 0 ≤ r.confidence ∧ r.confidence ≤ 1) ∧
    (∀ m c a, ¬(0 ≤ c ∧ c ≤ 1) → mkResponse m c a = none) ∧
    (∀ k p r, greet_user k p = some r → 0 ≤ r.confidence ∧ r.confidence ≤ 1) ∧
    (∀ k p req r, handle_request k p req = some r →
      0 ≤ r.confidence ∧ r.confidence ≤ 1) := by
  have base : ∀ m c a r, mkResponse m c a = some r →
      0 ≤ r.confidence ∧ r.confidence ≤ 1 := by
    intro m c a r hr
    rw [mkResponse] at hr
    by_cases h : 0 ≤ c ∧ c ≤ 1
    · rw [if_pos h] at hr
      cases hr
      exact h
    · rw [if_neg h] at hr
      cases hr
  refine ⟨base, ?_, ?_, ?_⟩
  · intro m c a h
    rw [mkResponse, if_neg h]
  · intro k p r hr
    exact base _ _ _ _ hr
  · intro k p req r hr
    cases k <;> rw [handle_request] at hr <;> split at hr <;>
      exact base _ _ _ _ hr

/-- C6 witness: a `Response` constructed with confidence 1/2 has
confidence inside [0, 1]. -/
theorem response_confidence_invariant_witness :
    0 ≤ (Response.mk [] (1/2) true).confidence ∧
      (Response.mk [] (1/2) true).confidence ≤ 1 :=
  response_confidence_invariant.1 [] (1/2) true (Response.mk [] (1/2) true)
    (mkResponse_some [] (1/2) true (by norm_num) (by norm_num))

theorem reject_aux (k : AssistantKind) (p : UserProfile) (req : Request)
    (h : req.command_type ≠ handlesIntent k) :
    handle_request k p req = some ⟨rejectionMessage k, 0, false⟩ := by
  cases k <;> simp only [handlesIntent] at h <;>
    simp only [handle_request, rejectionMessage] <;> rw [if_neg h] <;>
      exact mkResponse_some _ _ _ (by norm_num) (by norm_num)

/-- C2: whenever a request's command type differs from the one intent a
variant handles, `handle_request` returns (it does not fail) the fixed
rejection response of that variant, with confidence 0 and no action
performed. -/
theorem handle_request_reject (k : AssistantKind) (p : UserProfile) (req : Request)
    (h : req.command_type ≠ handlesIntent k) :
    handle_request k p req = some ⟨rejectionMessage k, 0, false⟩ :=
  reject_aux k p req h

/-- C2 witness: "I want a workout plan" handled by the study variant is
rejected with confidence 0 and no action. -/
theorem handle_request_reject_witness :
    handle_request .Study carolProfile workoutRequest =
      some ⟨rejectionMessage .Study, 0, false⟩ :=
  handle_request_reject .Study carolProfile workoutRequest (by decide)

/-- C3: a music-intent request handled by the music variant succeeds with
confidence exactly 9/10 and an action performed, and the message contains
the mood read from the preferences (default "neutral" when the key is
absent) as well as both mood-parameterized placeholder tracks. -/
theorem music_handle_spec (p : UserProfile) (req : Request)
    (h : req.command_type = CommandType.RECOMMEND_MUSIC) :
    ∃ r, handle_request .Music p req = some r ∧
      r.confidence = 9/10 ∧ r.action_performed = true ∧
      dictGet p.preferences "mood".toList "neutral".toList <:+: r.message ∧
      song_1 (dictGet p.preferences "mood".toList "neutral".toList) <:+: r.message ∧
      song_2 (dictGet p.preferences "mood".toList "neutral".toList) <:+: r.message ∧
      (p.preferences.lookup "mood".toList = none →
        dictGet p.preferences "mood".toList "neutral".toList = "neutral".toList) := by
  simp only [handle_request, if_pos h, recommend_playlist]
  set mood := dictGet p.preferences "mood".toList "neutral".toList with hmood
  refine ⟨_, mkResponse_some _ _ _ (by decide) (by decide),
    by norm_num [Rat.mkRat_eq_div], rfl, ?_, ?_, ?_, ?_⟩
  · exact ⟨"Recommended playlist based on mood \x27".toList,
      "\x27: ".toList ++ ("[\x27".toList ++ song_1 mood ++ "\x27, \x27".toList
        ++ song_2 mood ++ "\x27]".toList),
      by simp [List.append_assoc]⟩
  · exact ⟨"Recommended playlist based on mood \x27".toList ++ mood ++ "\x27: ".toList
        ++ "[\x27".toList,
      "\x27, \x27".toList ++ song_2 mood ++ "\x27]".toList,
      by simp [List.append_assoc]⟩
  · exact ⟨"Recommended playlist based on mood \x27".toList ++ mood ++ "\x27: ".toList
        ++ "[\x27".toList ++ song_1 mood ++ "\x27, \x27".toList,
      "\x27]".toList,
      by simp [List.append_assoc]⟩
  · intro hl
    rw [hmood]
    unfold dictGet
    rw [hl]

/-- C3 witness: "Can you play some music for me?" with mood "happy". -/
theorem music_handle_spec_witness :
    ∃ r, handle_request .Music aliceProfile musicRequest = some r ∧
      r.confidence = 9/10 ∧ r.action_performed = true ∧
      dictGet aliceProfile.preferences "mood".toList "neutral".toList <:+: r.message ∧
      song_1 (dictGet aliceProfile.preferences "mood".toList "neutral".toList) <:+: r.message ∧
      song_2 (dictGet aliceProfile.preferences "mood".toList "neutral".toList) <:+: r.message ∧
      (aliceProfile.preferences.lookup "mood".toList = none →
        dictGet aliceProfile.preferences "mood".toList "neutral".toList = "neutral".toList) :=
  music_handle_spec aliceProfile musicRequest (by decide)

/-- C4: a study-intent request handled by the study variant succeeds with
confidence exactly 4/5 and an action performed, and the message contains
the topic read from the preferences (default "general topics" when the
key is absent) and the request timestamp formatted as "YYYY-MM-DD HH:MM". -/
theorem study_handle_spec (p : UserProfile) (req : Request)
    (h : req.command_type = CommandType.SCHEDULE_STUDY) :
    ∃ r, handle_request .Study p req = some r ∧
      r.confidence = 4/5 ∧ r.action_performed = true ∧
      dictGet p.preferences "study_topic".toList "general topics".toList <:+: r.message ∧
      strftime_YmdHM req.timestamp <:+: r.message ∧
      (p.preferences.lookup "study_topic".toList = none →
        dictGet p.preferences "study_topic".toList "general topics".toList
          = "general topics".toList) := by
  simp only [handle_request, if_pos h, schedule_study_session]
  set topic := dictGet p.preferences "study_topic".toList "general topics".toList with htopic
  refine ⟨_, mkResponse_some _ _ _ (by decide) (by decide),
    by norm_num [Rat.mkRat_eq_div], rfl, ?_, ?_, ?_⟩
  · exact ⟨"Scheduled study session on \x27".toList,
      "\x27 at ".toList ++ strftime_YmdHM req.timestamp,
      by simp [List.append_assoc]⟩
  · exact ⟨"Scheduled study session on \x27".toList ++ topic ++ "\x27 at ".toList, [],
      by simp [List.append_assoc]⟩
  · intro hl
    rw [htopic]
    unfold dictGet
    rw [hl]

/-- C4 witness: the study request at the sample timestamp; the formatted
timestamp "2026-10-12 09:05" occurs in the message. -/
theorem study_handle_spec_witness :
    (∃ r, handle_request .Study carolProfile studyRequest = some r ∧
      r.confidence = 4/5 ∧ r.action_performed = true ∧
      dictGet carolProfile.preferences "study_topic".toList "general topics".toList
        <:+: r.message ∧
      strftime_YmdHM studyRequest.timestamp <:+: r.message ∧
      (carolProfile.preferences.lookup "study_topic".toList = none →
        dictGet carolProfile.preferences "study_topic".toList "general topics".toList
          = "general topics".toList)) ∧
    strftime_YmdHM studyRequest.timestamp = "2026-10-12 09:05".toList :=
  ⟨study_handle_spec carolProfile studyRequest (by decide), by decide⟩

/-- C10: `handle_request` is total — it returns a response on every
request — and the returned response performed an action precisely when
the request command type is the one intent the variant handles. -/
theorem handle_request_total_action (k : AssistantKind) (p : UserProfile) (req : Request) :
    ∃ r, handle_request k p req = some r ∧
      (r.action_performed = true ↔ req.command_type = handlesIntent k) := by
  cases k with
  | Music =>
    by_cases h : req.command_type = CommandType.RECOMMEND_MUSIC
    · obtain ⟨m, hm⟩ : ∃ m, handle_request .Music p req = some ⟨m, mkRat 9 10, true⟩ := by
        simp only [handle_request, if_pos h, recommend_playlist]
        exact ⟨_, mkResponse_some _ _ _ (by decide) (by decide)⟩
      exact ⟨_, hm, by simp [handlesIntent, h]⟩
    · exact ⟨⟨rejectionMessage .Music, 0, false⟩,
        reject_aux .Music p req (by simpa [handlesIntent] using h),
        by simp [handlesIntent, h]⟩
  | Fitness =>
    by_cases h : req.command_type = CommandType.SUGGEST_WORKOUT
    · obtain ⟨m, hm⟩ : ∃ m, handle_request .Fitness p req = some ⟨m, mkRat 17 20, true⟩ := by
        simp only [handle_request, if_pos h, suggest_workout]
        exact ⟨_, mkResponse_some _ _ _ (by decide) (by decide)⟩
      exact ⟨_, hm, by simp [handlesIntent, h]⟩
    · exact ⟨⟨rejectionMessage .Fitness, 0, false⟩,
        reject_aux .Fitness p req (by simpa [handlesIntent] using h),
        by simp [handlesIntent, h]⟩
  | Study =>
    by_cases h : req.command_type = CommandType.SCHEDULE_STUDY
    · obtain ⟨m, hm⟩ : ∃ m, handle_request .Study p req = some ⟨m, mkRat 4 5, true⟩ := by
        simp only [handle_request, if_pos h, schedule_study_session]
        exact ⟨_, mkResponse_some _ _ _ (by decide) (by decide)⟩
      exact ⟨_, hm, by simp [handlesIntent, h]⟩
    · exact ⟨⟨rejectionMessage .Study, 0, false⟩,
        reject_aux .Study p req (by simpa [handlesIntent] using h),
        by simp [handlesIntent, h]⟩

/-- C7: `greet_user` always succeeds and returns the fixed greeting
template instantiated with the profile name — the name occurs in the
message — with confidence 1 and no action performed; the behaviour is
identical for all three assistant variants. -/
theorem greet_user_spec (k : AssistantKind) (p : UserProfile) :
    greet_user k p = some ⟨greeting_message p.name, 1, false⟩ ∧
      p.name <:+: greeting_message p.name ∧
      ∀ k' : AssistantKind, greet_user k' p = greet_user k p := by
  refine ⟨mkResponse_some _ _ _ (by norm_num) (by norm_num), ?_, fun k' => rfl⟩
  exact ⟨"Hello, ".toList, "! How can assistance begin today?".toList, rfl⟩
